import Mathlib

/-!
Verification of the AlgoSensei chat backend (Next.js route handlers) as a
shallow embedding in Lean.

Embedded source files:
* src/lib/azure-storage.ts   — blob-store adapter (encodeEmail, uploadJson,
  downloadJson, deleteBlob, listJsonBlobs); the Azure blob container is
  modelled as an association list from blob path to stored chat record.
* src/app/api/chats/route.ts           — GET (list chats), POST (create chat)
* src/app/api/chats/[chatId]/route.ts  — GET / PATCH / DELETE on one chat
* src/app/api/ai/route.ts              — streaming completion relay
* src/lib/mem0.ts                      — best-effort memory sidecar

Conventions used throughout:
* Timestamps are epoch milliseconds (the value of new Date(iso).getTime()
  for the stored ISO string), so Nat.
* JavaScript string truthiness is explicit: a missing value is none, and a
  present string is falsy exactly when it is empty.
* JS strings are manipulated through their character lists so that every
  definition evaluates inside the kernel.
-/

/-! ## JavaScript string primitives, modelled on character lists -/

/-- ASCII lower-casing of one character (String.prototype.toLowerCase on the
characters relevant here; non-ASCII letters are later sanitised to an
underscore either way). -/
def jsLowerChar (c : Char) : Char :=
  if 'A' ≤ c ∧ c ≤ 'Z' then Char.ofNat (c.toNat + 32) else c

/-- Whitespace test used by String.prototype.trim (ASCII portion). -/
def jsIsWs (c : Char) : Bool :=
  c = ' ' || c = '\t' || c = '\n' || c = '\r'

/-- String.prototype.trim: strip whitespace from both ends. -/
def jsTrim (s : String) : String :=
  String.mk (((s.data.dropWhile jsIsWs).reverse.dropWhile jsIsWs).reverse)

/-- Does the character list `l` start with `p`? (used for blob-prefix listing
and cookie-substring search). -/
def charsStartWith : List Char → List Char → Bool
  | _, [] => true
  | [], _ :: _ => false
  | c :: cs, p :: ps => c == p && charsStartWith cs ps

/-- Does the character list `l` contain `p` as a contiguous run?
(String.prototype.includes). -/
def charsContain : List Char → List Char → Bool
  | [], p => p.isEmpty
  | l@(_ :: rest), p => charsStartWith l p || charsContain rest p

/-- String.prototype.includes. -/
def jsIncludes (s pat : String) : Bool :=
  charsContain s.data pat.data

/-- Does `s` start with `pre`? (blob listing by prefix). -/
def jsStartsWith (s pre : String) : Bool :=
  charsStartWith s.data pre.data

/-- JS `a || b` for an optional string `a`: a missing or empty string falls
through to `b`. -/
def jsOrStr (a : Option String) (b : String) : String :=
  match a with
  | some s => if s = "" then b else s
  | none => b

/-- JS truthiness of an optional string. -/
def jsTruthy (a : Option String) : Bool :=
  match a with
  | some s => s ≠ ""
  | none => false

/-! ## src/lib/azure-storage.ts -/

/-- Characters the sanitising regex `[^a-z0-9._-]` of encodeEmail lets
through. -/
def isAllowedChar (c : Char) : Bool :=
  ('a' ≤ c && c ≤ 'z') || ('0' ≤ c && c ≤ '9') || c = '.' || c = '_' || c = '-'

/-- encodeEmail (src/lib/azure-storage.ts): lower-case the email, replace
every `@` with `_at_`, then replace every character outside `[a-z0-9._-]`
with `_`. -/
def encodeEmail (email : String) : String :=
  let lowered := email.data.map jsLowerChar
  let atExpanded := lowered.flatMap fun c =>
    if c = '@' then ['_', 'a', 't', '_'] else [c]
  String.mk (atExpanded.map fun c => if isAllowedChar c then c else '_')

/-- Blob path of a registered user record
(src/app/api/auth/register/route.ts). -/
def userBlobPath (email : String) : String :=
  "users/" ++ encodeEmail email ++ ".json"

/-- Blob-path namespace holding one owner's chats. -/
def chatsNamespace (email : String) : String :=
  "chats/" ++ encodeEmail email ++ "/"

/-- Blob path of one chat record. -/
def chatPath (email chatId : String) : String :=
  chatsNamespace email ++ chatId ++ ".json"

/-- A message payload as sent by the client in a PATCH body. The handlers
treat it as an opaque JSON object (`messages: unknown[]`), so it is a wrapped
opaque string here; being an object it is always truthy. -/
structure MsgPayload where
  raw : String
deriving Repr, DecidableEq

/-- A message as stored inside a chat record: the client payload together
with the session-correlation id the PATCH handler attaches
(`{ ...message, sessionId: sessionId || null }`). -/
structure ChatMessage where
  payload : MsgPayload
  sessionId : Option String
deriving Repr, DecidableEq

/-- StoredChat (src/app/api/chats/route.ts and [chatId]/route.ts). -/
structure StoredChat where
  id : String
  userEmail : String
  sessionId : Option String
  title : String
  messages : List ChatMessage
  createdAt : Nat
  updatedAt : Nat
deriving Repr, DecidableEq

/-- The Azure blob container, as an association list from blob path to the
chat record stored there (keys are unique when built by the operations
below). -/
abbrev BlobStore := List (String × StoredChat)

/-- downloadJson: return the record stored at `path`, or none when absent
(the 404 branch of the adapter). -/
def downloadJson (store : BlobStore) (path : String) : Option StoredChat :=
  (store.find? fun p => p.1 = path).map Prod.snd

/-- uploadJson: overwrite the record at `path`, creating it when absent. -/
def uploadJson (store : BlobStore) (path : String) (v : StoredChat) : BlobStore :=
  if store.any (fun p => p.1 = path) then
    store.map fun p => if p.1 = path then (path, v) else p
  else
    store ++ [(path, v)]

/-- deleteBlob: remove the record at `path`; the Bool says whether something
was removed. -/
def deleteBlob (store : BlobStore) (path : String) : Bool × BlobStore :=
  (store.any (fun p => p.1 = path), store.filter fun p => p.1 ≠ path)

/-- listJsonBlobs: contents of every blob whose path starts with `pre`, in
container order. -/
def listJsonBlobs (store : BlobStore) (pre : String) : List StoredChat :=
  (store.filter fun p => jsStartsWith p.1 pre).map Prod.snd

/-! ## src/app/api/chats — route handlers

Each handler receives the outcome of getServerSession as an optional caller
email (none when there is no session or the session has no email), plus the
request-specific inputs; storage-mutating handlers return the response
together with the updated store.  Timestamps (`now`) and fresh identifiers
(`freshId`) are inputs, standing for new Date() and generateId(). -/

/-- Responses produced by the chats route handlers. -/
inductive ChatsResponse where
  | unauthorized
  | notFound
  | okChat (chat : StoredChat)
  | okList (chats : List StoredChat)
  | okSuccess
deriving Repr, DecidableEq

/-- Boolean comparator of the GET /chats sort:
`(a, b) => new Date(b.updatedAt).getTime() - new Date(a.updatedAt).getTime()`,
i.e. descending by updated timestamp. -/
def updatedDesc (a b : StoredChat) : Bool :=
  decide (b.updatedAt ≤ a.updatedAt)

/-- GET /chats (src/app/api/chats/route.ts): list every blob under the
caller's encoded-email namespace and sort by updatedAt descending. -/
def listChatsHandler (store : BlobStore) (sessionEmail : Option String) :
    ChatsResponse :=
  match sessionEmail with
  | none => .unauthorized
  | some email =>
    let userChats := listJsonBlobs store (chatsNamespace email)
    .okList (userChats.mergeSort updatedDesc)

/-- POST /chats (src/app/api/chats/route.ts): create a chat with
`title || 'New Discussion'`, empty messages, both timestamps `now`. -/
def createChatHandler (store : BlobStore) (sessionEmail : Option String)
    (title : Option String) (sessionId : Option String)
    (freshId : String) (now : Nat) : ChatsResponse × BlobStore :=
  match sessionEmail with
  | none => (.unauthorized, store)
  | some email =>
    let newChat : StoredChat :=
      { id := freshId
        userEmail := email
        sessionId := sessionId
        title := if jsTruthy title then title.getD "" else "New Discussion"
        messages := []
        createdAt := now
        updatedAt := now }
    (.okChat newChat, uploadJson store (chatPath email freshId) newChat)

/-- GET /chats/[chatId]: 404 when the blob is absent or the stored owner
differs from the caller. -/
def getChatHandler (store : BlobStore) (sessionEmail : Option String)
    (chatId : String) : ChatsResponse :=
  match sessionEmail with
  | none => .unauthorized
  | some email =>
    match downloadJson store (chatPath email chatId) with
    | none => .notFound
    | some chat =>
      if chat.userEmail ≠ email then .notFound else .okChat chat

/-- Body of a PATCH /chats/[chatId] request. -/
structure PatchBody where
  title : Option String
  message : Option MsgPayload
deriving Repr, DecidableEq

/-- PATCH /chats/[chatId]: read the chat (404 as in GET), set updatedAt to
now, apply the rename when the title is truthy, append the
sessionId-enriched message when one is present, write back, return the
updated record. -/
def patchChatHandler (store : BlobStore) (sessionEmail : Option String)
    (chatId : String) (body : PatchBody) (sessionId : Option String)
    (now : Nat) : ChatsResponse × BlobStore :=
  match sessionEmail with
  | none => (.unauthorized, store)
  | some email =>
    let blobPath := chatPath email chatId
    match downloadJson store blobPath with
    | none => (.notFound, store)
    | some chat =>
      if chat.userEmail ≠ email then (.notFound, store)
      else
        let c1 := { chat with updatedAt := now }
        let c2 := if jsTruthy body.title
          then { c1 with title := body.title.getD "" } else c1
        let c3 := match body.message with
          | some m => { c2 with messages := c2.messages ++ [⟨m, sessionId⟩] }
          | none => c2
        (.okChat c3, uploadJson store blobPath c3)

/-- DELETE /chats/[chatId]: delete the blob; 404 when nothing was removed. -/
def deleteChatHandler (store : BlobStore) (sessionEmail : Option String)
    (chatId : String) : ChatsResponse × BlobStore :=
  match sessionEmail with
  | none => (.unauthorized, store)
  | some email =>
    let r := deleteBlob store (chatPath email chatId)
    (if r.1 then .okSuccess else .notFound, r.2)

/-! ## src/app/api/ai/route.ts — inbound message shapes and validation -/

/-- One element of an array-valued message content, as sent by the client:
either `{type:'text', text}` (a missing text field behaves like the empty
string in both the filter and the map) or `{type:'image_url', image_url}`. -/
inductive MsgPart where
  | text (s : String)
  | image (url : String)
deriving Repr, DecidableEq

/-- The content field of an inbound message: absent/null (falsy), a plain
string, or an array of parts. -/
inductive AiContent where
  | plain (s : String)
  | parts (l : List MsgPart)
deriving Repr, DecidableEq

/-- An inbound message of the POST /ai body: an optional role string and an
optional content. -/
structure AiMessage where
  role : Option String
  content : Option AiContent
deriving Repr, DecidableEq

/-- A part of an outbound (provider-bound) message:
text, or an image reference with `detail`. -/
inductive OutPart where
  | text (s : String)
  | image (url : String) (detail : String)
deriving Repr, DecidableEq

/-- Outbound content: plain string or array of parts. -/
inductive OutContent where
  | plain (s : String)
  | parts (l : List OutPart)
deriving Repr, DecidableEq

/-- A message as sent to the LLM provider. -/
structure OutMessage where
  role : String
  content : OutContent
deriving Repr, DecidableEq

/-- The filter of `validMessages`: keep an array-valued content when some
part is a text part with truthy trimmed text or an image part; keep a plain
content when it is truthy and its trim is non-empty. -/
def keepMessage (m : AiMessage) : Bool :=
  match m.content with
  | none => false
  | some (.parts l) =>
    l.any fun p =>
      match p with
      | .text s => jsTrim s ≠ ""
      | .image _ => true
  | some (.plain s) => s ≠ "" && jsTrim s ≠ ""

/-- The map of `validMessages`: coerce the role (anything other than `user`
becomes `assistant`), trim text, attach `detail:'auto'` to images. -/
def mapMessage (m : AiMessage) : OutMessage :=
  let role := if m.role = some "user" then "user" else "assistant"
  match m.content with
  | some (.parts l) =>
    { role := role
      content := .parts (l.map fun p =>
        match p with
        | .image u => .image u "auto"
        | .text s => .text (jsTrim s)) }
  | some (.plain s) => { role := role, content := .plain (jsTrim s) }
  | none => { role := role, content := .plain "" }

/-- validMessages (src/app/api/ai/route.ts lines 377–407):
filter then map. -/
def validMessages (messages : List AiMessage) : List OutMessage :=
  (messages.filter keepMessage).map mapMessage

/-! ## src/app/api/ai/route.ts — streaming relay -/

/-- One chunk of the provider stream; `chunk.choices?.[0]?.delta?.content`
is an optional string. -/
abbrev StreamChunk := Option String

/-- Events of the relay loop: a chunk is received from the provider, a delta
is enqueued on the outbound stream. -/
inductive RelayEvent where
  | recv (delta : StreamChunk)
  | emit (s : String)
deriving Repr, DecidableEq

/-- One iteration of `for await (const chunk of completion)`: when the delta
is truthy, append it to fullContent and enqueue it.  State is
(fullContent, emitted chunks so far). -/
def relayStep (st : String × List String) (d : StreamChunk) :
    String × List String :=
  match d with
  | some s => if s ≠ "" then (st.1 ++ s, st.2 ++ [s]) else st
  | none => st

/-- The whole relay loop over the provider chunks, from the empty
accumulator. -/
def relayRun (chunks : List StreamChunk) : String × List String :=
  chunks.foldl relayStep ("", [])

/-- The event trace of the relay loop: each chunk is received, and its delta
is emitted (when truthy) before the next chunk is received — the loop holds
no buffer of pending deltas. -/
def relayTrace : List StreamChunk → List RelayEvent
  | [] => []
  | d :: rest =>
    .recv d ::
      (match d with
       | some s => if s ≠ "" then .emit s :: relayTrace rest else relayTrace rest
       | none => relayTrace rest)

/-! ## src/lib/mem0.ts — memory sidecar -/

/-- A memory entry returned by the Mem0 search endpoint (only the content
field is consumed). -/
structure Mem0Memory where
  content : String
deriving Repr, DecidableEq

/-- The payload of mem0UpsertMemory (interface MemoryUpsert), with the
metadata fields the AI route attaches. -/
structure MemoryUpsert where
  userId : String
  sessionId : Option String
  content : String
  tags : List String
  timestamp : Nat
  messageCount : Nat
deriving Repr, DecidableEq

/-- A JavaScript exception value. -/
inductive JsError where
  | err (msg : String)
deriving Repr, DecidableEq

/-- Outcome of the fetch in mem0QueryMemories: the promise rejects, or a
response arrives with an ok flag, a flag saying whether res.json() throws,
and the optional `results` field of the parsed body. -/
inductive QueryFetchOutcome where
  | netThrow
  | resp (ok : Bool) (jsonThrows : Bool) (results : Option (List Mem0Memory))
deriving Repr, DecidableEq

/-- Outcome of the fetch in mem0UpsertMemory (the response itself is
ignored by the source). -/
inductive UpsertFetchOutcome where
  | netThrow
  | completes
deriving Repr, DecidableEq

/-- The body of mem0QueryMemories up to but not including its catch: every
fetch/parse failure is a thrown error here. -/
def mem0QueryAttempt (f : QueryFetchOutcome) :
    Except JsError (List Mem0Memory) :=
  match f with
  | .netThrow => .error (.err "fetch failed")
  | .resp ok jsonThrows results =>
    if !ok then .ok []
    else if jsonThrows then .error (.err "invalid json")
    else .ok (results.getD [])

/-- mem0QueryMemories (src/lib/mem0.ts lines 42–58): return `[]` when the
API key is not configured, otherwise run the fetch under try/catch with the
catch returning `[]`.  The Except layer records that the function itself
never throws. -/
def mem0QueryMemories (apiKey : Option String) (f : QueryFetchOutcome) :
    Except JsError (List Mem0Memory) :=
  if !jsTruthy apiKey then .ok []
  else
    match mem0QueryAttempt f with
    | .ok l => .ok l
    | .error _ => .ok []

/-- mem0UpsertMemory (src/lib/mem0.ts lines 21–36): no-op without an API
key; otherwise fetch under try/catch, the catch only logging.  Returns
whether the fetch was attempted. -/
def mem0UpsertMemory (apiKey : Option String) (_payload : MemoryUpsert)
    (f : UpsertFetchOutcome) : Except JsError Unit × Bool :=
  if !jsTruthy apiKey then (.ok (), false)
  else
    match f with
    | .netThrow => (.ok (), true)
    | .completes => (.ok (), true)

/-! ## src/app/api/ai/route.ts — the POST handler -/

/-- Which of the four required provider environment variables are set. -/
structure AiEnv where
  endpointSet : Bool
  keySet : Bool
  deploymentSet : Bool
  apiVersionSet : Bool
deriving Repr, DecidableEq

/-- All four provider variables present (otherwise the handler throws into
its catch and answers 500). -/
def AiEnv.allSet (e : AiEnv) : Bool :=
  e.endpointSet && e.keySet && e.deploymentSet && e.apiVersionSet

/-- An inbound POST /ai request: the raw cookie header, the outcome of
getServerSession (optional user email and id), and the parsed messages
body. -/
structure AiRequest where
  cookieHeader : Option String
  sessionEmail : Option String
  sessionUserId : Option String
  messages : List AiMessage
deriving Repr, DecidableEq

/-- External calls the handler makes, in program order. -/
inductive AiCall where
  | memQuery (userId : String)
  | provider (msgs : List OutMessage)
  | memUpsert (payload : MemoryUpsert)
deriving Repr, DecidableEq

/-- The handler's response: 401 Unauthorized, a 500 JSON error, or the
streamed body given by the list of enqueued chunks. -/
inductive AiResponse where
  | unauthorized
  | serverError (details : String)
  | streamed (chunksOut : List String)
deriving Repr, DecidableEq

/-- The cookie-marker substring the gate looks for. -/
def sessionTokenMarker : String := "next-auth.session-token"

/-- The identity gate of POST /ai:
`cookieHeader?.includes('next-auth.session-token')`. -/
def hasSessionCookie (cookieHeader : Option String) : Bool :=
  match cookieHeader with
  | none => false
  | some c => jsIncludes c sessionTokenMarker

/-- `session?.user?.email || session?.user?.id || 'anonymous'`. -/
def aiUserId (req : AiRequest) : String :=
  jsOrStr req.sessionEmail (jsOrStr req.sessionUserId "anonymous")

/-- The long Socratic tutoring system prompt of src/app/api/ai/route.ts.
Its literal text plays no role in any claim, so it is stood for by a
marker string. -/
def systemPromptText : String :=
  "AlgoSensei Socratic visual-first DSA tutor system prompt"

/-- `memories?.length ? memories.map(m => '- ' + m.content).join('\n')
: 'No previous sessions recorded yet.'`. -/
def memoryContext (memories : List Mem0Memory) : String :=
  if memories.length ≠ 0 then
    String.intercalate "\n" (memories.map fun m => "- " ++ m.content)
  else
    "No previous sessions recorded yet."

/-- The full message list sent to the provider: the system message (prompt
plus learner context) followed by the validated messages. -/
def providerMessages (req : AiRequest) (memories : List Mem0Memory) :
    List OutMessage :=
  { role := "system"
    content := .plain (systemPromptText
      ++ "\n\nLEARNER CONTEXT (from memory)\n" ++ memoryContext memories) }
  :: validMessages req.messages

/-- The memories the handler works with: the result of mem0QueryMemories,
which never throws, unwrapped. -/
def mem0Fetched (key : Option String) (qf : QueryFetchOutcome) :
    List Mem0Memory :=
  match mem0QueryMemories key qf with
  | .ok l => l
  | .error _ => []

/-- POST /ai (src/app/api/ai/route.ts lines 349–481), as a function of the
request, the environment, the memory-sidecar configuration and fetch
outcome, whether the provider call throws, and the provider's stream
chunks.  Returns the response and the trace of external calls. -/
def aiHandler (env : AiEnv) (req : AiRequest) (mem0Key : Option String)
    (qf : QueryFetchOutcome) (providerThrows : Bool)
    (chunks : List StreamChunk) (sessionId : Option String) (now : Nat) :
    AiResponse × List AiCall :=
  if !hasSessionCookie req.cookieHeader then (.unauthorized, [])
  else if !env.allSet then
    (.serverError "missing provider configuration", [])
  else
    let userId := aiUserId req
    match mem0QueryMemories mem0Key qf with
    | .error _ => (.serverError "memory query threw", [.memQuery userId])
    | .ok memories =>
      let msgs := providerMessages req memories
      if providerThrows then
        (.serverError "provider request failed",
         [.memQuery userId, .provider msgs])
      else
        let r := relayRun chunks
        let payload : MemoryUpsert :=
          { userId := userId
            sessionId := sessionId
            content := r.1
            tags := ["assistant-reply"]
            timestamp := now
            messageCount := (validMessages req.messages).length }
        (.streamed r.2,
         [.memQuery userId, .provider msgs, .memUpsert payload])

/-! ## Store lemmas -/

/-- Reading back the path just written returns the written record. -/
theorem downloadJson_uploadJson_self (store : BlobStore) (path : String)
    (v : StoredChat) :
    downloadJson (uploadJson store path v) path = some v := by
  unfold downloadJson uploadJson
  cases h : store.any (fun p => p.1 = path) with
  | true =>
    simp only [if_true]
    rw [List.find?_map]
    have hpf : ((fun p : String × StoredChat => decide (p.1 = path)) ∘
        (fun p : String × StoredChat => if p.1 = path then (path, v) else p)) =
        fun p : String × StoredChat => decide (p.1 = path) := by
      funext p
      by_cases hp : p.1 = path <;> simp [hp]
    rw [hpf]
    rcases List.any_eq_true.mp h with ⟨q, hq, hq1⟩
    have hs : (store.find? (fun p => decide (p.1 = path))).isSome = true :=
      List.find?_isSome.mpr ⟨q, hq, hq1⟩
    have hsome : ∃ r, store.find? (fun p => decide (p.1 = path)) = some r := by
      cases hfind : store.find? (fun p => decide (p.1 = path)) with
      | none => rw [hfind] at hs; simp at hs
      | some r => exact ⟨r, rfl⟩
    rcases hsome with ⟨r, hr⟩
    have hr1 : r.1 = path := by
      have := List.find?_some hr
      simpa using this
    rw [hr]
    simp [hr1]
  | false =>
    simp only [Bool.false_eq_true, if_false]
    rw [List.find?_append]
    have hnone : store.find? (fun p => decide (p.1 = path)) = none := by
      rw [List.find?_eq_none]
      intro x hx hx1
      have : store.any (fun p => decide (p.1 = path)) = true :=
        List.any_eq_true.mpr ⟨x, hx, hx1⟩
      rw [h] at this
      exact Bool.false_ne_true this
    rw [hnone]
    simp

/-! ## Claim theorems -/

/-- C9: encodeEmail is total, every character of its output lies in the
alphabet a–z, 0–9, dot, underscore, hyphen (the `_at_` marker is made of
such characters), and it is not injective: emails differing only in letter
case, or only in a character outside the alphabet, encode equally, so two
distinct registered emails can share one users/ blob key and one chats/
namespace. -/
theorem c9_encodeEmail_alphabet_and_collisions :
    (∀ e : String, (encodeEmail e).data.all isAllowedChar = true) ∧
    (encodeEmail "A@x.com" = encodeEmail "a@x.com" ∧ "A@x.com" ≠ "a@x.com") ∧
    (encodeEmail "a!b@x.com" = encodeEmail "a#b@x.com" ∧
      "a!b@x.com" ≠ "a#b@x.com") ∧
    userBlobPath "A@x.com" = userBlobPath "a@x.com" ∧
    chatsNamespace "A@x.com" = chatsNamespace "a@x.com" := by
  refine ⟨?_, by decide, by decide, by decide, by decide⟩
  intro e
  rw [List.all_eq_true]
  intro c hc
  unfold encodeEmail at hc
  simp only [String.mk] at hc
  rcases List.mem_map.mp hc with ⟨a, _, ha⟩
  by_cases hall : isAllowedChar a = true
  · rw [← ha]; simp [hall]
  · rw [← ha]; simp [hall]; decide

/-- C5: GET /chats/[chatId] answers 404 exactly when the blob at the
owner-namespaced path is absent or the stored record's owner field differs
from the caller's email, and both causes produce the same notFound
response. -/
theorem c5_getChat_notFound_iff (store : BlobStore) (email chatId : String) :
    getChatHandler store (some email) chatId = ChatsResponse.notFound ↔
      downloadJson store (chatPath email chatId) = none ∨
      ∃ c, downloadJson store (chatPath email chatId) = some c ∧
        c.userEmail ≠ email := by
  unfold getChatHandler
  cases h : downloadJson store (chatPath email chatId) with
  | none => simp [h]
  | some c =>
    by_cases he : c.userEmail = email
    · simp [h, he]
    · simp [h, he]

/-- Witness for C5 at a concrete store and caller. -/
theorem c5_getChat_notFound_iff_witness :
    getChatHandler [] (some "a@x.com") "c1" = ChatsResponse.notFound ↔
      downloadJson [] (chatPath "a@x.com" "c1") = none ∨
      ∃ c, downloadJson [] (chatPath "a@x.com" "c1") = some c ∧
        c.userEmail ≠ "a@x.com" :=
  c5_getChat_notFound_iff [] "a@x.com" "c1"

/-- C7: after POST /chats succeeds for an owner with a non-empty title X,
GET on the returned id yields a chat with title X, an empty message list
and equal created/updated timestamps; POST with no title defaults the
title to New Discussion. -/
theorem c7_createChat_getChat_roundtrip (store : BlobStore) (email : String)
    (sid : Option String) (freshId : String) (now : Nat) (t : String)
    (ht : t ≠ "") :
    (∃ chat, (createChatHandler store (some email) (some t) sid freshId now).1 =
        ChatsResponse.okChat chat ∧
      getChatHandler
        (createChatHandler store (some email) (some t) sid freshId now).2
        (some email) freshId = ChatsResponse.okChat chat ∧
      chat.title = t ∧ chat.messages = [] ∧
      chat.createdAt = chat.updatedAt) ∧
    (∃ chat2, (createChatHandler store (some email) none sid freshId now).1 =
        ChatsResponse.okChat chat2 ∧ chat2.title = "New Discussion") := by
  constructor
  · refine ⟨_, rfl, ?_, ?_, rfl, rfl⟩
    · unfold getChatHandler createChatHandler
      simp only []
      rw [downloadJson_uploadJson_self]
      simp
    · simp [createChatHandler, jsTruthy, ht]
  · exact ⟨_, rfl, by simp [createChatHandler, jsTruthy]⟩

/-- Witness for C7 at a concrete owner, title and store. -/
theorem c7_createChat_getChat_roundtrip_witness :
    ("X" ≠ "") ∧
    ((∃ chat, (createChatHandler [] (some "a@x.com") (some "X") none "c1" 7).1 =
        ChatsResponse.okChat chat ∧
      getChatHandler
        (createChatHandler [] (some "a@x.com") (some "X") none "c1" 7).2
        (some "a@x.com") "c1" = ChatsResponse.okChat chat ∧
      chat.title = "X" ∧ chat.messages = [] ∧
      chat.createdAt = chat.updatedAt) ∧
    (∃ chat2, (createChatHandler [] (some "a@x.com") none none "c1" 7).1 =
        ChatsResponse.okChat chat2 ∧ chat2.title = "New Discussion")) :=
  ⟨by decide, c7_createChat_getChat_roundtrip [] "a@x.com" none "c1" 7 "X"
    (by decide)⟩

/-- C10: a PATCH whose body carries no message and no truthy title (absent
or the empty string) still succeeds: the handler answers 200 with the chat
and rewrites the blob, updatedAt set to now and every other field
unchanged; in particular a rename to the empty string is silently
ignored. -/
theorem c10_patch_empty_body (store : BlobStore) (email chatId : String)
    (sid : Option String) (now : Nat) (c : StoredChat) (t : Option String)
    (hdl : downloadJson store (chatPath email chatId) = some c)
    (hown : c.userEmail = email)
    (ht : t = none ∨ t = some "") :
    patchChatHandler store (some email) chatId ⟨t, none⟩ sid now =
      (ChatsResponse.okChat { c with updatedAt := now },
       uploadJson store (chatPath email chatId) { c with updatedAt := now }) := by
  have htr : jsTruthy t = false := by
    rcases ht with h | h <;> simp [h, jsTruthy]
  simp [patchChatHandler, hdl, hown, htr]

/-- Witness for C10: one stored chat, PATCH body with an empty-string
title and no message. -/
theorem c10_patch_empty_body_witness :
    patchChatHandler
        [(chatPath "a@x.com" "c1",
          { id := "c1", userEmail := "a@x.com", sessionId := none,
            title := "Old", messages := [], createdAt := 3, updatedAt := 3 })]
        (some "a@x.com") "c1" ⟨some "", none⟩ none 9 =
      (ChatsResponse.okChat
        { id := "c1", userEmail := "a@x.com", sessionId := none,
          title := "Old", messages := [], createdAt := 3, updatedAt := 9 },
       uploadJson
        [(chatPath "a@x.com" "c1",
          { id := "c1", userEmail := "a@x.com", sessionId := none,
            title := "Old", messages := [], createdAt := 3, updatedAt := 3 })]
        (chatPath "a@x.com" "c1")
        { id := "c1", userEmail := "a@x.com", sessionId := none,
          title := "Old", messages := [], createdAt := 3, updatedAt := 9 }) :=
  c10_patch_empty_body
    [(chatPath "a@x.com" "c1",
      { id := "c1", userEmail := "a@x.com", sessionId := none,
        title := "Old", messages := [], createdAt := 3, updatedAt := 3 })]
    "a@x.com" "c1" none 9
    { id := "c1", userEmail := "a@x.com", sessionId := none,
      title := "Old", messages := [], createdAt := 3, updatedAt := 3 }
    (some "") (by decide) (by decide) (Or.inr rfl)

/-- Sequentially applies N non-concurrent PATCH appends of the given
payloads to one chat, each with its own request timestamp, threading the
store from call to call; the Bool records that every call answered 200
with the updated chat. -/
def appendRun (email chatId : String) (sid : Option String) :
    List (MsgPayload × Nat) → BlobStore → BlobStore × Bool
  | [], store => (store, true)
  | m :: rest, store =>
    let r := patchChatHandler store (some email) chatId ⟨none, some m.1⟩ sid m.2
    let r2 := appendRun email chatId sid rest r.2
    (r2.1, (match r.1 with | .okChat _ => true | _ => false) && r2.2)

/-- One append step: with the chat present and owned, PATCH with only a
message answers 200 and stores the chat with the enriched message pushed
and updatedAt set. -/
theorem patch_append_step (store : BlobStore) (email chatId : String)
    (sid : Option String) (m : MsgPayload) (now : Nat) (c : StoredChat)
    (h1 : downloadJson store (chatPath email chatId) = some c)
    (h2 : c.userEmail = email) :
    patchChatHandler store (some email) chatId ⟨none, some m⟩ sid now =
      (ChatsResponse.okChat
        { c with updatedAt := now, messages := c.messages ++ [⟨m, sid⟩] },
       uploadJson store (chatPath email chatId)
        { c with updatedAt := now, messages := c.messages ++ [⟨m, sid⟩] }) := by
  simp [patchChatHandler, h1, h2, jsTruthy]

/-- Running appendRun from a present, owned chat succeeds at every step and
appends exactly the enriched payloads, in call order, to the stored
message list, leaving title, createdAt and id unchanged. -/
theorem appendRun_spec (email chatId : String) (sid : Option String)
    (msgs : List (MsgPayload × Nat)) :
    ∀ (store : BlobStore) (c : StoredChat),
      downloadJson store (chatPath email chatId) = some c →
      c.userEmail = email →
      ∃ c', downloadJson (appendRun email chatId sid msgs store).1
          (chatPath email chatId) = some c' ∧
        (appendRun email chatId sid msgs store).2 = true ∧
        c'.userEmail = email ∧
        c'.messages = c.messages ++ msgs.map (fun m => ⟨m.1, sid⟩) ∧
        c'.title = c.title ∧ c'.createdAt = c.createdAt ∧ c'.id = c.id := by
  induction msgs with
  | nil =>
    intro store c h1 h2
    exact ⟨c, h1, rfl, h2, by simp, rfl, rfl, rfl⟩
  | cons m rest ih =>
    intro store c h1 h2
    have hstep := patch_append_step store email chatId sid m.1 m.2 c h1 h2
    have hdl2 : downloadJson (uploadJson store (chatPath email chatId) { c with updatedAt := m.2, messages := c.messages ++ [⟨m.1, sid⟩] }) (chatPath email chatId) = some { c with updatedAt := m.2, messages := c.messages ++ [⟨m.1, sid⟩] } :=
      downloadJson_uploadJson_self _ _ _
    rcases ih (uploadJson store (chatPath email chatId) { c with updatedAt := m.2, messages := c.messages ++ [⟨m.1, sid⟩] }) { c with updatedAt := m.2, messages := c.messages ++ [⟨m.1, sid⟩] } hdl2 h2 with ⟨c', hc1, hc2, hc3, hc4, hc5, hc6, hc7⟩
    refine ⟨c', ?_, ?_, hc3, ?_, hc5, hc6, hc7⟩
    · show downloadJson (appendRun email chatId sid (m :: rest) store).1
        (chatPath email chatId) = some c'
      simp only [appendRun, hstep]
      exact hc1
    · simp only [appendRun, hstep]
      simpa using hc2
    · rw [hc4]
      simp [List.append_assoc]

/-- C6: starting from a stored, owned chat with an empty message sequence,
N sequential successful PATCH appends leave getChat returning exactly the
N appended messages, in call order, each being the given payload enriched
with the session id — none edited or reordered. -/
theorem c6_appendMessage_monotonic (store : BlobStore) (email chatId : String)
    (sid : Option String) (c : StoredChat) (msgs : List (MsgPayload × Nat))
    (h1 : downloadJson store (chatPath email chatId) = some c)
    (h2 : c.userEmail = email) (h3 : c.messages = []) :
    (appendRun email chatId sid msgs store).2 = true ∧
    ∃ c', getChatHandler (appendRun email chatId sid msgs store).1
        (some email) chatId = ChatsResponse.okChat c' ∧
      c'.messages = msgs.map (fun m => ⟨m.1, sid⟩) ∧
      c'.messages.length = msgs.length ∧
      c'.messages.map ChatMessage.payload = msgs.map Prod.fst := by
  rcases appendRun_spec email chatId sid msgs store c h1 h2 with
    ⟨c', hc1, hc2, hc3, hc4, _, _, _⟩
  rw [h3] at hc4
  simp only [List.nil_append] at hc4
  constructor
  · exact hc2
  · use c'
    refine ⟨?_, hc4, ?_, ?_⟩
    · simp [getChatHandler, hc1, hc3]
    · rw [hc4]; simp
    · rw [hc4]; simp

/-- Witness for C6: two appends to a fresh empty chat. -/
theorem c6_appendMessage_monotonic_witness :
    (appendRun "a@x.com" "c1" (some "s")
        [(⟨"m1"⟩, 4), (⟨"m2"⟩, 5)]
        [(chatPath "a@x.com" "c1",
          { id := "c1", userEmail := "a@x.com", sessionId := none,
            title := "T", messages := [], createdAt := 3, updatedAt := 3 })]).2
      = true ∧
    ∃ c', getChatHandler
        (appendRun "a@x.com" "c1" (some "s")
          [(⟨"m1"⟩, 4), (⟨"m2"⟩, 5)]
          [(chatPath "a@x.com" "c1",
            { id := "c1", userEmail := "a@x.com", sessionId := none,
              title := "T", messages := [], createdAt := 3, updatedAt := 3 })]).1
        (some "a@x.com") "c1" = ChatsResponse.okChat c' ∧
      c'.messages = [(⟨"m1"⟩, 4), (⟨"m2"⟩, 5)].map
        (fun m : MsgPayload × Nat => (⟨m.1, some "s"⟩ : ChatMessage)) ∧
      c'.messages.length =
        ([(⟨"m1"⟩, 4), (⟨"m2"⟩, 5)] : List (MsgPayload × Nat)).length ∧
      c'.messages.map ChatMessage.payload =
        ([(⟨"m1"⟩, 4), (⟨"m2"⟩, 5)] : List (MsgPayload × Nat)).map Prod.fst :=
  c6_appendMessage_monotonic
    [(chatPath "a@x.com" "c1",
      { id := "c1", userEmail := "a@x.com", sessionId := none,
        title := "T", messages := [], createdAt := 3, updatedAt := 3 })]
    "a@x.com" "c1" (some "s")
    { id := "c1", userEmail := "a@x.com", sessionId := none,
      title := "T", messages := [], createdAt := 3, updatedAt := 3 }
    [(⟨"m1"⟩, 4), (⟨"m2"⟩, 5)]
    (by decide) (by decide) (by decide)

/-- C2 counterexample: the emails a@x.com and A@x.com are distinct, but
encode to the same namespace; after the owner a@x.com creates a chat,
GET /chats for the caller A@x.com returns that chat although its stored
userEmail field differs from the caller's email — refuting the claim that
only chats whose stored userEmail equals the caller's email are
returned. -/
theorem c2_listChats_counterexample :
    listChatsHandler
        (createChatHandler [] (some "a@x.com") (some "t1") none "c1" 5).2
        (some "A@x.com") =
      ChatsResponse.okList
        [{ id := "c1", userEmail := "a@x.com", sessionId := none,
           title := "t1", messages := [], createdAt := 5, updatedAt := 5 }] ∧
    "a@x.com" ≠ "A@x.com" := by
  have h1 : listJsonBlobs
      (createChatHandler [] (some "a@x.com") (some "t1") none "c1" 5).2
      (chatsNamespace "A@x.com") =
      [{ id := "c1", userEmail := "a@x.com", sessionId := none,
         title := "t1", messages := [], createdAt := 5, updatedAt := 5 }] := by
    decide
  refine ⟨?_, by decide⟩
  show ChatsResponse.okList
      ((listJsonBlobs
        (createChatHandler [] (some "a@x.com") (some "t1") none "c1" 5).2
        (chatsNamespace "A@x.com")).mergeSort updatedDesc) = _
  rw [h1, List.mergeSort_singleton]

/-- C2 amended: for every authenticated caller and backend state,
GET /chats returns exactly the chats stored under the caller's
encoded-email key namespace, sorted by updatedAt descending; the stored
userEmail of every returned chat equals the caller's email whenever every
chat in that namespace carries it (which fails only when a distinct email
collides under encodeEmail). -/
theorem c2_listChats_amended (store : BlobStore) (email : String) :
    ∃ l, listChatsHandler store (some email) = ChatsResponse.okList l ∧
      l.Perm (listJsonBlobs store (chatsNamespace email)) ∧
      List.Sorted (fun a b => b.updatedAt ≤ a.updatedAt) l ∧
      ((∀ c ∈ listJsonBlobs store (chatsNamespace email),
          c.userEmail = email) → ∀ c ∈ l, c.userEmail = email) := by
  refine ⟨(listJsonBlobs store (chatsNamespace email)).mergeSort updatedDesc,
    rfl, List.mergeSort_perm _ _, ?_, ?_⟩
  · have htrans : ∀ a b c : StoredChat, updatedDesc a b = true →
        updatedDesc b c = true → updatedDesc a c = true := by
      intro a b c hab hbc
      simp only [updatedDesc, decide_eq_true_eq] at hab hbc ⊢
      omega
    have htotal : ∀ a b : StoredChat,
        (updatedDesc a b || updatedDesc b a) = true := by
      intro a b
      simp only [updatedDesc, Bool.or_eq_true, decide_eq_true_eq]
      omega
    have hp := List.sorted_mergeSort htrans htotal
      (listJsonBlobs store (chatsNamespace email))
    exact hp.imp (by intro a b h; simpa [updatedDesc] using h)
  · intro hall c hc
    exact hall c ((List.mergeSort_perm _ _).mem_iff.mp hc)

/-- Witness for the C2 amended theorem at a concrete store and caller. -/
theorem c2_listChats_amended_witness :
    ∃ l, listChatsHandler
        [(chatPath "a@x.com" "c1",
          { id := "c1", userEmail := "a@x.com", sessionId := none,
            title := "t1", messages := [], createdAt := 5, updatedAt := 5 })]
        (some "a@x.com") = ChatsResponse.okList l ∧
      l.Perm (listJsonBlobs
        [(chatPath "a@x.com" "c1",
          { id := "c1", userEmail := "a@x.com", sessionId := none,
            title := "t1", messages := [], createdAt := 5, updatedAt := 5 })]
        (chatsNamespace "a@x.com")) ∧
      List.Sorted (fun a b => b.updatedAt ≤ a.updatedAt) l ∧
      ((∀ c ∈ listJsonBlobs
          [(chatPath "a@x.com" "c1",
            { id := "c1", userEmail := "a@x.com", sessionId := none,
              title := "t1", messages := [], createdAt := 5, updatedAt := 5 })]
          (chatsNamespace "a@x.com"),
          c.userEmail = "a@x.com") → ∀ c ∈ l, c.userEmail = "a@x.com") :=
  c2_listChats_amended
    [(chatPath "a@x.com" "c1",
      { id := "c1", userEmail := "a@x.com", sessionId := none,
        title := "t1", messages := [], createdAt := 5, updatedAt := 5 })]
    "a@x.com"

/-- Modelled from the claim's wording (spec-side predicate, for comparison
with keepMessage): content is blank when absent, empty/whitespace plain
text, or a parts array with no non-empty text part and no image part. -/
def specBlankContent (m : AiMessage) : Bool :=
  match m.content with
  | none => true
  | some (.plain s) => jsTrim s = ""
  | some (.parts l) =>
    !(l.any fun p =>
      match p with
      | .text s => jsTrim s ≠ ""
      | .image _ => true)

/-- Is an outbound (provider-bound) message a blank turn: empty plain
content, or parts with no non-empty text and no image. -/
def outBlank (m : OutMessage) : Bool :=
  match m.content with
  | .plain s => s = ""
  | .parts l =>
    !(l.any fun p =>
      match p with
      | .text s => s ≠ ""
      | .image _ _ => true)

/-- The source filter keeps a message exactly when its content is not blank
in the sense of the spec wording. -/
theorem keepMessage_eq_not_specBlank (m : AiMessage) :
    keepMessage m = !specBlankContent m := by
  unfold keepMessage specBlankContent
  match m with
  | ⟨r, none⟩ => rfl
  | ⟨r, some (.parts l)⟩ => simp
  | ⟨r, some (.plain s)⟩ =>
    by_cases hs : s = ""
    · subst hs
      have : jsTrim "" = "" := by decide
      simp [this]
    · simp [hs]

/-- C4 counterexample: a message with no role but non-empty content is not
dropped — it is forwarded upstream with role assistant — refuting the
claim that messages with no role are dropped before sending. -/
theorem c4_validation_counterexample :
    validMessages [{ role := none, content := some (AiContent.plain "hi") }] =
      [{ role := "assistant", content := OutContent.plain "hi" }] := by decide

/-- C4 amended: validMessages drops exactly the messages whose content is
blank (absent, empty/whitespace plain text, or a parts array with no
non-empty text part and no image part), forwards every remaining message
in order, and never forwards a blank turn; a missing role does not cause a
drop — the message is forwarded with role assistant. -/
theorem c4_validation_amended (messages : List AiMessage) :
    validMessages messages =
      (messages.filter fun m => !specBlankContent m).map mapMessage ∧
    (∀ om ∈ validMessages messages, outBlank om = false) := by
  constructor
  · unfold validMessages
    congr 1
    exact List.filter_congr fun m _ => keepMessage_eq_not_specBlank m
  · intro om hom
    unfold validMessages at hom
    rcases List.mem_map.mp hom with ⟨m, hm, hmap⟩
    have hkeep : keepMessage m = true := (List.mem_filter.mp hm).2
    subst hmap
    unfold keepMessage at hkeep
    unfold mapMessage outBlank
    match m with
    | ⟨r, none⟩ => exact absurd hkeep (by simp)
    | ⟨r, some (.plain s)⟩ =>
      simp only [Bool.and_eq_true, decide_eq_true_eq] at hkeep
      simp [hkeep.2]
    | ⟨r, some (.parts l)⟩ =>
      rcases List.any_eq_true.mp hkeep with ⟨p, hp, hgood⟩
      simp only [Bool.not_eq_false', List.any_eq_true, List.mem_map]
      match p, hgood with
      | MsgPart.text s, hgood =>
        exact ⟨OutPart.text (jsTrim s), ⟨MsgPart.text s, hp, rfl⟩,
          by simpa using hgood⟩
      | MsgPart.image u, _ =>
        exact ⟨OutPart.image u "auto", ⟨MsgPart.image u, hp, rfl⟩, rfl⟩

/-- Witness for the C4 amended theorem at a concrete message list: one
kept multi-part message, one kept plain message, one dropped whitespace
message, one dropped empty-parts message. -/
theorem c4_validation_amended_witness :
    validMessages
        [{ role := some "user", content := some (AiContent.plain " hi ") },
         { role := some "user", content := some (AiContent.plain "  ") },
         { role := none,
           content := some (AiContent.parts [MsgPart.image "u1"]) },
         { role := some "user", content := some (AiContent.parts []) }] =
      (([{ role := some "user", content := some (AiContent.plain " hi ") },
         { role := some "user", content := some (AiContent.plain "  ") },
         { role := none,
           content := some (AiContent.parts [MsgPart.image "u1"]) },
         { role := some "user",
           content := some (AiContent.parts []) }] : List AiMessage).filter
          fun m => !specBlankContent m).map mapMessage ∧
    (∀ om ∈ validMessages
        [{ role := some "user", content := some (AiContent.plain " hi ") },
         { role := some "user", content := some (AiContent.plain "  ") },
         { role := none,
           content := some (AiContent.parts [MsgPart.image "u1"]) },
         { role := some "user", content := some (AiContent.parts []) }],
      outBlank om = false) :=
  c4_validation_amended
    [{ role := some "user", content := some (AiContent.plain " hi ") },
     { role := some "user", content := some (AiContent.plain "  ") },
     { role := none, content := some (AiContent.parts [MsgPart.image "u1"]) },
     { role := some "user", content := some (AiContent.parts []) }]

/-- mem0QueryMemories never throws: its try/catch yields an ok value on
every configuration and fetch outcome. -/
theorem mem0QueryMemories_ok (apiKey : Option String) (f : QueryFetchOutcome) :
    ∃ l, mem0QueryMemories apiKey f = Except.ok l := by
  unfold mem0QueryMemories
  cases h : jsTruthy apiKey
  · exact ⟨[], by simp⟩
  · simp only [h, Bool.not_true, Bool.false_eq_true, if_false]
    cases hf : mem0QueryAttempt f with
    | ok l => exact ⟨l, by simp⟩
    | error e => exact ⟨[], by simp⟩

/-- C8: the memory sidecar never surfaces an error: queries always return
ok — the empty list when unconfigured, on a rejected fetch, a non-ok HTTP
response or a json-parse failure — and upserts always return ok, skipping
the fetch entirely when unconfigured. -/
theorem c8_mem0_never_raises (apiKey : Option String) (payload : MemoryUpsert)
    (qf : QueryFetchOutcome) (uf : UpsertFetchOutcome) :
    (∃ l, mem0QueryMemories apiKey qf = Except.ok l) ∧
    (jsTruthy apiKey = false → mem0QueryMemories apiKey qf = Except.ok []) ∧
    mem0QueryMemories apiKey QueryFetchOutcome.netThrow = Except.ok [] ∧
    (∀ (jthrows : Bool) (res : Option (List Mem0Memory)),
      mem0QueryMemories apiKey (QueryFetchOutcome.resp false jthrows res) =
        Except.ok []) ∧
    (∀ res : Option (List Mem0Memory),
      mem0QueryMemories apiKey (QueryFetchOutcome.resp true true res) =
        Except.ok []) ∧
    (mem0UpsertMemory apiKey payload uf).1 = Except.ok () ∧
    (jsTruthy apiKey = false →
      (mem0UpsertMemory apiKey payload uf).2 = false) := by
  refine ⟨mem0QueryMemories_ok apiKey qf, ?_, ?_, ?_, ?_, ?_, ?_⟩
  · intro h
    simp [mem0QueryMemories, h]
  · cases h : jsTruthy apiKey <;>
      simp [mem0QueryMemories, mem0QueryAttempt, h]
  · intro jthrows res
    cases h : jsTruthy apiKey <;>
      simp [mem0QueryMemories, mem0QueryAttempt, h]
  · intro res
    cases h : jsTruthy apiKey <;>
      simp [mem0QueryMemories, mem0QueryAttempt, h]
  · cases h : jsTruthy apiKey <;> cases uf <;>
      simp [mem0UpsertMemory, h]
  · intro h
    simp [mem0UpsertMemory, h]

/-- Witness for C8 with no API key configured and failing fetches. -/
theorem c8_mem0_never_raises_witness :
    (∃ l, mem0QueryMemories none QueryFetchOutcome.netThrow = Except.ok l) ∧
    (jsTruthy none = false →
      mem0QueryMemories none QueryFetchOutcome.netThrow = Except.ok []) ∧
    mem0QueryMemories none QueryFetchOutcome.netThrow = Except.ok [] ∧
    (∀ (jthrows : Bool) (res : Option (List Mem0Memory)),
      mem0QueryMemories none (QueryFetchOutcome.resp false jthrows res) =
        Except.ok []) ∧
    (∀ res : Option (List Mem0Memory),
      mem0QueryMemories none (QueryFetchOutcome.resp true true res) =
        Except.ok []) ∧
    (mem0UpsertMemory none
      { userId := "u", sessionId := none, content := "c",
        tags := [], timestamp := 0, messageCount := 0 }
      UpsertFetchOutcome.netThrow).1 = Except.ok () ∧
    (jsTruthy none = false →
      (mem0UpsertMemory none
        { userId := "u", sessionId := none, content := "c",
          tags := [], timestamp := 0, messageCount := 0 }
        UpsertFetchOutcome.netThrow).2 = false) :=
  c8_mem0_never_raises none
    { userId := "u", sessionId := none, content := "c",
      tags := [], timestamp := 0, messageCount := 0 }
    QueryFetchOutcome.netThrow UpsertFetchOutcome.netThrow

/-- Folding string append from an arbitrary accumulator factors out. -/
theorem strFoldlAppend (l : List String) :
    ∀ a : String, l.foldl (· ++ ·) a = a ++ l.foldl (· ++ ·) "" := by
  induction l with
  | nil => intro a; simp
  | cons c rest ih =>
    intro a
    simp only [List.foldl_cons]
    rw [ih (a ++ c), ih ("" ++ c), String.empty_append, String.append_assoc]

/-- String.join unfolds one element at a time. -/
theorem strJoinCons (c : String) (l : List String) :
    String.join (c :: l) = c ++ String.join l := by
  show (c :: l).foldl (· ++ ·) "" = c ++ l.foldl (· ++ ·) ""
  simp only [List.foldl_cons, String.empty_append]
  exact strFoldlAppend l c

/-- The relay loop over non-empty chunks, from an arbitrary accumulator:
it appends the concatenation to the accumulated text and the chunks to the
emitted list. -/
theorem relayRun_append (cs : List String) :
    (∀ s ∈ cs, s ≠ "") → ∀ acc : String × List String,
      (cs.map some).foldl relayStep acc =
        (acc.1 ++ String.join cs, acc.2 ++ cs) := by
  induction cs with
  | nil =>
    intro _ acc
    simp [String.join]
  | cons c rest ih =>
    intro h acc
    have hc : c ≠ "" := h c (List.mem_cons_self c rest)
    simp only [List.map_cons, List.foldl_cons]
    have hstep : relayStep acc (some c) = (acc.1 ++ c, acc.2 ++ [c]) := by
      simp [relayStep, hc]
    rw [hstep, ih (fun s hs => h s (List.mem_cons_of_mem c hs))]
    rw [strJoinCons, ← String.append_assoc]
    simp

/-- The relay loop on non-empty chunks accumulates exactly their
concatenation and emits exactly the chunks. -/
theorem relayRun_eq (cs : List String) (h : ∀ s ∈ cs, s ≠ "") :
    relayRun (cs.map some) = (String.join cs, cs) := by
  unfold relayRun
  rw [relayRun_append cs h ("", [])]
  simp

/-- On non-empty chunks the relay's event trace strictly interleaves
receive and emit: every delta is enqueued before the next chunk is read. -/
theorem relayTrace_interleaved (cs : List String)
    (h : ∀ s ∈ cs, s ≠ "") :
    relayTrace (cs.map some) =
      cs.flatMap fun s => [RelayEvent.recv (some s), RelayEvent.emit s] := by
  induction cs with
  | nil => rfl
  | cons c rest ih =>
    have hc : c ≠ "" := h c (List.mem_cons_self c rest)
    simp only [List.map_cons, List.flatMap_cons, relayTrace]
    rw [if_pos hc, ih (fun s hs => h s (List.mem_cons_of_mem c hs))]
    rfl

/-- C1: for every sequence of non-empty provider chunks, the POST /ai
stream emits exactly those chunks in provider order — each delta enqueued
before the next chunk is received, with no whole-completion buffering —
and the mem0UpsertMemory payload written afterwards has content equal to
the concatenation of the emitted chunks. -/
theorem c1_streaming_roundtrip (env : AiEnv) (req : AiRequest)
    (mem0Key : Option String) (qf : QueryFetchOutcome) (sid : Option String)
    (now : Nat) (cs : List String)
    (hcookie : hasSessionCookie req.cookieHeader = true)
    (henv : env.allSet = true)
    (hne : ∀ s ∈ cs, s ≠ "") :
    aiHandler env req mem0Key qf false (cs.map some) sid now =
      (AiResponse.streamed cs,
       [AiCall.memQuery (aiUserId req),
        AiCall.provider (providerMessages req (mem0Fetched mem0Key qf)),
        AiCall.memUpsert
          { userId := aiUserId req, sessionId := sid,
            content := String.join cs, tags := ["assistant-reply"],
            timestamp := now,
            messageCount := (validMessages req.messages).length }]) ∧
    relayTrace (cs.map some) =
      cs.flatMap fun s => [RelayEvent.recv (some s), RelayEvent.emit s] := by
  refine ⟨?_, relayTrace_interleaved cs hne⟩
  unfold aiHandler
  rcases mem0QueryMemories_ok mem0Key qf with ⟨l, hl⟩
  have hfl : mem0Fetched mem0Key qf = l := by
    unfold mem0Fetched
    rw [hl]
  simp only [hcookie, henv, hl, hfl, Bool.not_true, Bool.false_eq_true,
    if_false, relayRun_eq cs hne]

/-- Witness for C1: the 3-chunk scenario Hel, lo w, orld — the stream
emits exactly those chunks in order and the persisted content is their
concatenation Hello world. -/
theorem c1_streaming_roundtrip_witness :
    (aiHandler ⟨true, true, true, true⟩
        { cookieHeader := some "a=1; next-auth.session-token=tok",
          sessionEmail := some "a@x.com", sessionUserId := none,
          messages := [] }
        none QueryFetchOutcome.netThrow false
        (["Hel", "lo w", "orld"].map some) none 0 =
      (AiResponse.streamed ["Hel", "lo w", "orld"],
       [AiCall.memQuery (aiUserId
          { cookieHeader := some "a=1; next-auth.session-token=tok",
            sessionEmail := some "a@x.com", sessionUserId := none,
            messages := [] }),
        AiCall.provider (providerMessages
          { cookieHeader := some "a=1; next-auth.session-token=tok",
            sessionEmail := some "a@x.com", sessionUserId := none,
            messages := [] }
          (mem0Fetched none QueryFetchOutcome.netThrow)),
        AiCall.memUpsert
          { userId := aiUserId
              { cookieHeader := some "a=1; next-auth.session-token=tok",
                sessionEmail := some "a@x.com", sessionUserId := none,
                messages := [] },
            sessionId := none,
            content := String.join ["Hel", "lo w", "orld"],
            tags := ["assistant-reply"], timestamp := 0,
            messageCount := (validMessages
              ([] : List AiMessage)).length }]) ∧
    relayTrace (["Hel", "lo w", "orld"].map some) =
      ["Hel", "lo w", "orld"].flatMap
        fun s => [RelayEvent.recv (some s), RelayEvent.emit s]) ∧
    String.join ["Hel", "lo w", "orld"] = "Hello world" :=
  ⟨c1_streaming_roundtrip ⟨true, true, true, true⟩
    { cookieHeader := some "a=1; next-auth.session-token=tok",
      sessionEmail := some "a@x.com", sessionUserId := none,
      messages := [] }
    none QueryFetchOutcome.netThrow none 0 ["Hel", "lo w", "orld"]
    (by decide) (by decide) (by decide), by decide⟩

/-- C3 counterexample: a request whose cookie merely contains the marker
substring with an arbitrary invalid value, and whose session resolution
fails (getServerSession yields no user), is not rejected: the handler
proceeds and calls the memory sidecar and the provider — refuting the
claim that a request with an invalid credential is rejected with 401. -/
theorem c3_gate_counterexample :
    (aiHandler ⟨true, true, true, true⟩
        { cookieHeader := some "next-auth.session-token=not-a-valid-token",
          sessionEmail := none, sessionUserId := none, messages := [] }
        none QueryFetchOutcome.netThrow false [] none 0).1 ≠
      AiResponse.unauthorized ∧
    (aiHandler ⟨true, true, true, true⟩
        { cookieHeader := some "next-auth.session-token=not-a-valid-token",
          sessionEmail := none, sessionUserId := none, messages := [] }
        none QueryFetchOutcome.netThrow false [] none 0).2 ≠ [] := by
  constructor
  · decide
  · decide

/-- C3 amended: POST /ai answers 401 exactly when the cookie header is
absent or does not contain the literal substring next-auth.session-token,
and a 401 is produced before any external call runs (empty call trace);
the gate does not validate the credential — a request whose cookie merely
contains the marker proceeds even when session resolution fails. -/
theorem c3_gate_amended (env : AiEnv) (req : AiRequest)
    (mem0Key : Option String) (qf : QueryFetchOutcome) (pt : Bool)
    (chunks : List StreamChunk) (sid : Option String) (now : Nat) :
    ((aiHandler env req mem0Key qf pt chunks sid now).1 =
        AiResponse.unauthorized ↔
      hasSessionCookie req.cookieHeader = false) ∧
    (hasSessionCookie req.cookieHeader = false →
      aiHandler env req mem0Key qf pt chunks sid now =
        (AiResponse.unauthorized, [])) := by
  cases h : hasSessionCookie req.cookieHeader with
  | false =>
    constructor
    · simp [aiHandler, h]
    · intro _
      simp [aiHandler, h]
  | true =>
    have hne : (aiHandler env req mem0Key qf pt chunks sid now).1 ≠
        AiResponse.unauthorized := by
      unfold aiHandler
      simp only [h, Bool.not_true, Bool.false_eq_true, if_false]
      cases henv : env.allSet with
      | false => simp
      | true =>
        simp only [Bool.not_true, Bool.false_eq_true, if_false]
        rcases mem0QueryMemories_ok mem0Key qf with ⟨l, hl⟩
        rw [hl]
        cases pt <;> simp
    constructor
    · constructor
      · intro hx
        exact absurd hx hne
      · intro hx
        exact absurd hx (by simp)
    · intro hx
      exact absurd hx (by simp)

/-- Witness for the C3 amended theorem at a concrete cookie-less
request. -/
theorem c3_gate_amended_witness :
    ((aiHandler ⟨true, true, true, true⟩
        { cookieHeader := none, sessionEmail := some "a@x.com",
          sessionUserId := none, messages := [] }
        none QueryFetchOutcome.netThrow false [] none 0).1 =
        AiResponse.unauthorized ↔
      hasSessionCookie (none : Option String) = false) ∧
    (hasSessionCookie (none : Option String) = false →
      aiHandler ⟨true, true, true, true⟩
        { cookieHeader := none, sessionEmail := some "a@x.com",
          sessionUserId := none, messages := [] }
        none QueryFetchOutcome.netThrow false [] none 0 =
        (AiResponse.unauthorized, [])) :=
  c3_gate_amended ⟨true, true, true, true⟩
    { cookieHeader := none, sessionEmail := some "a@x.com",
      sessionUserId := none, messages := [] }
    none QueryFetchOutcome.netThrow false [] none 0
